import Mathlib

/-
Verification of the identity-pool engine of catalyst-plugin-identities
(src/index.js) against its natural-language specification.

The JavaScript class Identities is shallowly embedded:
  * timestamps (Date values, Date.now()) are integers in milliseconds;
  * the in-memory record map this._identities, a JS object keyed by id, is
    an association list in insertion order; a value of none models the null
    tombstone an entry gets when a record is removed; an absent key models
    an undefined lookup;
  * JS falsy checks on a record (null / undefined) are matches on Option;
  * asynchronous callbacks are passed in as explicit inputs: the creation
    callback is a stream of outcomes, the store round trip is an Except
    value, the error classifier is an Option-valued function that can
    itself fail.
-/

namespace Identities

/-- An identity record as it sits in the pool. All four fields exist on any
record built by addIdentity (source: the object literal in method _add,
src/index.js line 66); data has no default there, so it stays optional;
locked models both the initial false and the null written by unlock as
none, and a Date timestamp as some t. -/
structure Identity where
  data : Option String
  deprecated : Int
  lastTimeUsed : Int
  locked : Option Int
  deriving DecidableEq

/-- Pool options with the shape of _makeOptions (src/index.js lines 53-63).
Interval options are in seconds as in the source; they are multiplied by
1000 where the source does so. -/
structure Options where
  maxDeprecationsBeforeRemoval : Int
  minIntervalBetweenUse : Int
  minIntervalBetweenStoreUpdate : Int
  recentlyUsedFirst : Bool
  lockExpire : Int
  maxRetryCreateIdentities : Int
  allowNoIdentity : Bool
  waitForStoreUpdateWhenNoIdentity : Bool
  pollingIntervalWaitingForAvailable : Int
  deriving DecidableEq

/-- The defaults spread first in _makeOptions (src/index.js lines 54-62). -/
def defaultOptions : Options where
  maxDeprecationsBeforeRemoval := 1
  minIntervalBetweenUse := 0
  minIntervalBetweenStoreUpdate := 10
  recentlyUsedFirst := true
  lockExpire := 600
  maxRetryCreateIdentities := -1
  allowNoIdentity := false
  waitForStoreUpdateWhenNoIdentity := false
  pollingIntervalWaitingForAvailable := 1

/-- The in-memory map this._identities: id to record, none being the null
tombstone left by remove (src/index.js line 273). -/
abbrev IdMap := List (String × Option Identity)

/-- JS property read this._identities[id]: none models undefined (key
absent), some none the null tombstone, some (some i) a live record. -/
def lookupEntry : IdMap → String → Option (Option Identity)
  | [], _ => none
  | (k, v) :: rest, id => if k = id then some v else lookupEntry rest id

/-- The record at id if the entry exists and is not a tombstone. -/
def liveLookup (m : IdMap) (id : String) : Option Identity :=
  match lookupEntry m id with
  | some (some i) => some i
  | _ => none

/-- JS assignment this._identities[id] = e: overwrite the entry in place if
the key exists, else append it (object keys keep insertion order). -/
def setAdd : IdMap → String → Option Identity → IdMap
  | [], id, e => [(id, e)]
  | (k, v) :: rest, id, e => if k = id then (k, e) :: rest else (k, v) :: setAdd rest id e

/-- The generator _iterIdentities (src/index.js lines 279-284): yield every
non-tombstone entry, in insertion order. -/
def iterIdentities (m : IdMap) : List (String × Identity) :=
  m.filterMap fun p =>
    match p.2 with
    | some i => some (p.1, i)
    | none => none

/-- The availability predicate _isAvailable (src/index.js lines 321-325):
the lock is absent or strictly older than now minus lockExpire seconds,
and lastTimeUsed is at most now minus minIntervalBetweenUse seconds. -/
def isAvailable (opts : Options) (now : Int) (i : Identity) : Bool :=
  (match i.locked with
   | none => true
   | some t => decide (t < now - opts.lockExpire * 1000))
  && decide (i.lastTimeUsed ≤ now - opts.minIntervalBetweenUse * 1000)

/-- One step of the candidate scan inside get (src/index.js lines 80-95):
skip unavailable records; otherwise keep the current candidate unless the
new record is strictly more (resp. less) recently used, depending on
recentlyUsedFirst. -/
def scanStep (opts : Options) (now : Int) (best : Option (String × Identity))
    (i : String × Identity) : Option (String × Identity) :=
  if isAvailable opts now i.2 = false then best
  else
    match best with
    | none => some i
    | some b =>
      if opts.recentlyUsedFirst then
        if b.2.lastTimeUsed < i.2.lastTimeUsed then some i else some b
      else
        if i.2.lastTimeUsed < b.2.lastTimeUsed then some i else some b

/-- The whole for-loop of get over a record list (src/index.js lines 80-95). -/
def selectIdentity (opts : Options) (now : Int) (l : List (String × Identity)) :
    Option (String × Identity) :=
  l.foldl (scanStep opts now) none

/-- The scan phase of get over the in-memory map. -/
def getScan (opts : Options) (now : Int) (m : IdMap) : Option (String × Identity) :=
  selectIdentity opts now (iterIdentities m)

/-- Comparison vocabulary for the selection claims: r is at least as good a
candidate as x under the recency policy. -/
def noWorse (opts : Options) (r x : Identity) : Prop :=
  if opts.recentlyUsedFirst then x.lastTimeUsed ≤ r.lastTimeUsed
  else r.lastTimeUsed ≤ x.lastTimeUsed

/-- y is a strictly worse candidate than r under the recency policy. -/
def strictlyWorse (opts : Options) (y r : Identity) : Prop :=
  if opts.recentlyUsedFirst then y.lastTimeUsed < r.lastTimeUsed
  else r.lastTimeUsed < y.lastTimeUsed

/-- A mutator argument: either a plain id string or a previously returned
record snapshot carrying its id (the duck typing of _find,
src/index.js lines 286-292). -/
inductive Ref where
  | byId (id : String)
  | byRec (id : String) (snap : Identity)
  deriving DecidableEq

/-- The method _find (src/index.js lines 286-292) combined with the truthiness
check every mutator performs on its result. For a string: the map entry; a
null or undefined entry is falsy, giving none. For a snapshot: the live map
entry if there is one, else a detached copy of the snapshot (the spread in
this._identities[one.id] or spread-of-one), which is always truthy. The
Bool records whether the object in hand is the live map entry (so that
field assignments reach the map) or the detached copy (so they do not). -/
def findLive (m : IdMap) : Ref → String × Option Identity × Bool
  | .byId id =>
    match lookupEntry m id with
    | some (some i) => (id, some i, true)
    | _ => (id, none, false)
  | .byRec id snap =>
    match lookupEntry m id with
    | some (some i) => (id, some i, true)
    | _ => (id, some snap, false)

/-- The mutator lock (src/index.js lines 207-213): set locked to now on the
object in hand and return the snapshot with its id. -/
def lock (m : IdMap) (now : Int) (one : Ref) : IdMap × Option (String × Identity) :=
  match findLive m one with
  | (_, none, _) => (m, none)
  | (id, some i, live) =>
    let i' : Identity := { i with locked := some now }
    (if live then setAdd m id (some i') else m, some (id, i'))

/-- The mutator touch (src/index.js lines 226-232): set lastTimeUsed to now
on the object in hand. The sync scheduling it triggers is modelled
separately by syncStoreForce. -/
def touch (m : IdMap) (now : Int) (one : Ref) : IdMap × Option (String × Identity) :=
  match findLive m one with
  | (_, none, _) => (m, none)
  | (id, some i, live) =>
    let i' : Identity := { i with lastTimeUsed := now }
    (if live then setAdd m id (some i') else m, some (id, i'))

/-- The mutator unlock (src/index.js lines 215-224): if locked is set, clear
it and re-touch the record through its id. The nested this.touch call acts
on the same live object, so in the live case it is inlined as the
lastTimeUsed update; in the detached case touch by id finds no live entry
and the copy keeps its old lastTimeUsed. -/
def unlock (m : IdMap) (now : Int) (one : Ref) : IdMap × Option (String × Identity) :=
  match findLive m one with
  | (_, none, _) => (m, none)
  | (id, some i, live) =>
    match i.locked with
    | some _ =>
      if live then
        let i' : Identity := { i with locked := none, lastTimeUsed := now }
        (setAdd m id (some i'), some (id, i'))
      else
        (m, some (id, { i with locked := none }))
    | none => (m, some (id, i))

/-- The mutator update (src/index.js lines 234-240): replace the payload. -/
def update (m : IdMap) (one : Ref) (d : Option String) : IdMap × Option (String × Identity) :=
  match findLive m one with
  | (_, none, _) => (m, none)
  | (id, some i, live) =>
    let i' : Identity := { i with data := d }
    (if live then setAdd m id (some i') else m, some (id, i'))

/-- The mutator renew (src/index.js lines 242-251): reset deprecated to 0
when it is positive. -/
def renew (m : IdMap) (one : Ref) : IdMap × Option (String × Identity) :=
  match findLive m one with
  | (_, none, _) => (m, none)
  | (id, some i, live) =>
    if 0 < i.deprecated then
      let i' : Identity := { i with deprecated := 0 }
      (if live then setAdd m id (some i') else m, some (id, i'))
    else (m, some (id, i))

/-- The mutator remove (src/index.js lines 270-277): write a null tombstone
at the id of the object in hand. The write happens whenever _find produced
a truthy object, including the detached-copy case. -/
def remove (m : IdMap) (one : Ref) : IdMap × Option (String × Identity) :=
  match findLive m one with
  | (_, none, _) => (m, none)
  | (id, some i, _) => (setAdd m id none, some (id, i))

/-- The mutator deprecate (src/index.js lines 253-268): increment deprecated
(the JS guard identity.deprecated-or-0 collapses to plain increment over
total integer fields), remove on reaching a non-negative threshold, then
force-unlock through the id. The returned snapshot is the object in hand,
which in the live non-removed case is the map entry after the unlock. -/
def deprecate (opts : Options) (m : IdMap) (now : Int) (one : Ref) :
    IdMap × Option (String × Identity) :=
  match findLive m one with
  | (_, none, _) => (m, none)
  | (id, some i, live) =>
    let i' : Identity := { i with deprecated := i.deprecated + 1 }
    let m1 := if live then setAdd m id (some i') else m
    let m2 :=
      if 0 ≤ opts.maxDeprecationsBeforeRemoval ∧
          opts.maxDeprecationsBeforeRemoval ≤ i'.deprecated then
        (remove m1 (.byId id)).1
      else m1
    let m3 := (unlock m2 now (.byId id)).1
    (m3, some (id, (liveLookup m3 id).getD i'))

/-- One full pass of get after a successful scan (src/index.js lines
100-107): touch the selected record, optionally lock it, and return the
final snapshot together with the updated map. A none scan result models
the branch that falls through to the creator. -/
def getStep (opts : Options) (now : Int) (m : IdMap) (lck : Bool) :
    Option (String × Identity) × IdMap :=
  match getScan opts now m with
  | none => (none, m)
  | some (id, r) =>
    match (touch m now (.byRec id r)).2 with
    | none => (none, (touch m now (.byRec id r)).1)
    | some s =>
      if lck then
        ((lock (touch m now (.byRec id r)).1 now (.byRec s.1 s.2)).2,
         (lock (touch m now (.byRec id r)).1 now (.byRec s.1 s.2)).1)
      else (some s, (touch m now (.byRec id r)).1)

/-- A raw record payload before _add applies its defaults: each field may be
absent. The locked field distinguishes an absent key (outer none, giving
the default false) from a present null/false value. -/
structure Payload where
  id : Option String := none
  data : Option String := none
  deprecated : Option Int := none
  lastTimeUsed : Option Int := none
  locked : Option (Option Int) := none
  deriving DecidableEq

/-- The field-by-field merge in _add (src/index.js line 67): fields of the
existing map entry take precedence over the incoming record. Entries built
by addIdentity always carry deprecated, lastTimeUsed and locked, so only
data, which has no default in _add, can fall through to the incoming one. -/
def addMerge (existing fresh : Identity) : Identity :=
  { data :=
      match existing.data with
      | some d => some d
      | none => fresh.data
    deprecated := existing.deprecated
    lastTimeUsed := existing.lastTimeUsed
    locked := existing.locked }

/-- The method _add (src/index.js lines 65-70): apply defaults (freshId
plays uuid4(), now plays new Date()), merge with any existing entry at
that id, store the result and return it. -/
def addIdentity (m : IdMap) (freshId : String) (now : Int) (p : Payload) :
    IdMap × (String × Identity) :=
  let id := p.id.getD freshId
  let fresh : Identity :=
    { data := p.data
      deprecated := p.deprecated.getD 0
      lastTimeUsed := p.lastTimeUsed.getD now
      locked := p.locked.getD none }
  let added :=
    match lookupEntry m id with
    | some (some existing) => addMerge existing fresh
    | _ => fresh
  (setAdd m id (some added), (id, added))

/-- The _add call performed on every record yielded while loading a store
fragment (the loop of _load, src/index.js lines 45-50, with unlock false):
same merge, but the record arrives with all fields and its key as id. -/
def addIdentityFull (m : IdMap) (id : String) (i : Identity) : IdMap :=
  let added :=
    match lookupEntry m id with
    | some (some existing) => addMerge existing i
    | _ => i
  setAdd m id (some added)

/-- The identities part of _load (src/index.js lines 45-50): iterate the
non-tombstone records of the loaded fragment and _add each. Option
reloading and the sync-window reconfiguration on lines 37-44 only affect
scheduling and are not modelled. -/
def loadIdentities (m loaded : IdMap) : IdMap :=
  (iterIdentities loaded).foldl (fun acc pr => addIdentityFull acc pr.1 pr.2) m

/-- Delete every null entry of the map (src/index.js lines 314-318). -/
def purgeTombstones (m : IdMap) : IdMap :=
  m.filter fun p => p.2.isSome

/-- There is no tombstone left in the map. -/
def noTombstones (m : IdMap) : Bool :=
  m.all fun p => p.2.isSome

/-- An error value as the classifier sees it: whether it is an Error
instance, and its name. -/
structure JsError where
  isError : Bool
  name : String
  deriving DecidableEq

/-- The method _syncStoreForce (src/index.js lines 298-319). The store round
trip (pull when the map is empty, push otherwise) is the roundTrip input:
ok carries the identities of the returned fragment for this pool name,
error models a thrown store failure, which the catch turns into a logged
warning while keeping deleteNullIdentities false. Tombstones are purged
only when deleteNullIdentities survived as true. The function is total:
no error escapes to the caller. -/
def syncStoreForce (stored : Bool) (roundTrip : Except JsError IdMap) (m : IdMap) : IdMap :=
  let pr : Bool × IdMap :=
    if stored then
      match roundTrip with
      | .ok loaded => (true, loadIdentities m loaded)
      | .error _ => (false, m)
    else (true, m)
  if pr.1 then purgeTombstones pr.2 else pr.2

/-- Deprecation monotonicity between two map states: every id whose entry in
m is live and that is still live in m2 has not lost deprecation count. -/
def deprecNondecreasing (m m2 : IdMap) : Bool :=
  m.all fun p =>
    match liveLookup m p.1, liveLookup m2 p.1 with
    | some i, some i2 => decide (i.deprecated ≤ i2.deprecated)
    | _, _ => true

/-- Behaviour of renew on deprecation counts: every id live in both states
either kept its deprecated value or had it reset to 0. -/
def renewResets (m m2 : IdMap) : Bool :=
  m.all fun p =>
    match liveLookup m p.1, liveLookup m2 p.1 with
    | some i, some i2 => (i2.deprecated == i.deprecated) || (i2.deprecated == 0)
    | _, _ => true

/-- One mutation step is deprecation-safe: every live record of the result
descends from a live record of the input at the same id with no smaller
deprecated. -/
def stepOk (m m2 : IdMap) : Prop :=
  ∀ q i2, liveLookup m2 q = some i2 →
    ∃ i, liveLookup m q = some i ∧ i.deprecated ≤ i2.deprecated

/-- What one invocation of the creation callback did: returned a value
(none models a falsy return, and a payload returned without data collapses
to the same invalid case the source warns about) or threw. -/
inductive CallbackRun where
  | ret (p : Option Payload)
  | thr (e : JsError)
  deriving DecidableEq

/-- Outcome of the error classification block of _createIdentity
(src/index.js lines 133-149): whether the error counts as retryable,
whether the createIdentityError callback was invoked, and the secondary
error it threw if it did throw (which the source catches and logs). -/
structure ClassifyResult where
  retryable : Bool
  consulted : Bool
  classifierError : Option JsError
  deriving DecidableEq

/-- The error classification block of _createIdentity (src/index.js lines
133-149): an Error named JobRuntime is retryable outright; otherwise the
optional createIdentityError callback is consulted and a truthy message
makes the error retryable; a classifier that itself throws is caught,
leaving the original error non-retryable. -/
def classify (createIdentityError : Option (JsError → Except JsError (Option String)))
    (e : JsError) : ClassifyResult :=
  if e.isError && e.name == "JobRuntime" then ⟨true, false, none⟩
  else
    match createIdentityError with
    | none => ⟨false, false, none⟩
    | some f =>
      match f e with
      | .error ee => ⟨false, true, some ee⟩
      | .ok msg => ⟨msg.isSome, true, none⟩

/-- The per-pool configuration _createIdentity reads: whether a creation
callback exists, the optional classifier, the stored flag and the
options. -/
structure CreatorConfig where
  hasCreateFn : Bool
  createIdentityError : Option (JsError → Except JsError (Option String))
  stored : Bool
  opts : Options

/-- Result of one iteration of the while loop of _createIdentity: loop
again, return a boolean to get, let the callback error propagate, or
abort through logger.fail (which, per the collaborator contract, aborts
the logical call). -/
inductive CreateStep where
  | again (m : IdMap)
  | ret (b : Bool) (m : IdMap)
  | thrown (e : JsError) (m : IdMap)
  | failed (m : IdMap)
  deriving DecidableEq

/-- The tail of each _createIdentity iteration (src/index.js lines 158-203):
retry while maxRetryCreateIdentities is non-negative, the trial count has
not exceeded it and a creation callback exists; otherwise apply the
exhaustion ladder: allowNoIdentity returns false; a non-empty pool with a
positive polling interval sleeps and returns true; an empty stored pool
with waitForStoreUpdateWhenNoIdentity pulls (pulled is the fragment the
blocking pull resolves with), loads it and returns true; else logger.fail
aborts. -/
def retryOrExhaust (cfg : CreatorConfig) (m : IdMap) (trial : Nat) (pulled : IdMap) :
    CreateStep :=
  if 0 ≤ cfg.opts.maxRetryCreateIdentities ∧
      (trial : Int) ≤ cfg.opts.maxRetryCreateIdentities ∧ cfg.hasCreateFn = true then
    .again m
  else if cfg.opts.allowNoIdentity = true then .ret false m
  else if m.isEmpty = false ∧ 0 < cfg.opts.pollingIntervalWaitingForAvailable then .ret true m
  else if m.isEmpty = true ∧ cfg.stored = true ∧
      cfg.opts.waitForStoreUpdateWhenNoIdentity = true then
    .ret true (loadIdentities m pulled)
  else .failed m

/-- One iteration of the while loop of _createIdentity (src/index.js lines
114-204): invoke the callback when configured (run is what it did),
discard an invalid result, classify an error as retryable or let it
propagate, add a valid result and return true, else fall into
retryOrExhaust. freshId plays the uuid4 of _add. -/
def createIdentityStep (cfg : CreatorConfig) (m : IdMap) (trial : Nat)
    (run : CallbackRun) (freshId : String) (now : Int) (pulled : IdMap) : CreateStep :=
  let error : Option JsError :=
    if cfg.hasCreateFn then
      match run with
      | .thr e => some e
      | .ret _ => none
    else none
  let created : Option Payload :=
    if cfg.hasCreateFn then
      match run with
      | .ret p => p
      | .thr _ => none
    else none
  let created : Option Payload :=
    match created with
    | some p => if p.data.isSome then some p else none
    | none => none
  match error with
  | some e =>
    if (classify cfg.createIdentityError e).retryable then retryOrExhaust cfg m trial pulled
    else .thrown e m
  | none =>
    match created with
    | some p => .ret true (addIdentity m freshId now p).1
    | none => retryOrExhaust cfg m trial pulled

/-- The while loop of _createIdentity driven by fuel: runs and freshIds give
the callback outcome and the fresh uuid of each trial, indexed by the
trial counter. none means the fuel ran out with the loop still running. -/
def createIdentityRun (cfg : CreatorConfig) (now : Int) (runs : Nat → CallbackRun)
    (freshIds : Nat → String) (pulled : IdMap) :
    Nat → Nat → IdMap → Option CreateStep
  | 0, _, _ => none
  | fuel + 1, trial, m =>
    match createIdentityStep cfg m (trial + 1) (runs (trial + 1)) (freshIds (trial + 1))
        now pulled with
    | .again m' => createIdentityRun cfg now runs freshIds pulled fuel (trial + 1) m'
    | .ret b m' => some (.ret b m')
    | .thrown e m' => some (.thrown e m')
    | .failed m' => some (.failed m')

/-- Modelled from the spec: the dedup single-flight wrapper of
raychee-utils, applied to _createIdentity with key null (src/index.js line
18) but not part of this repository. Per sections 4.3 and 9 of the spec,
the pool holds one in-flight-operation slot with a shared pending result;
a caller finding the slot empty starts a new attempt, and every caller
arriving while it is occupied attaches to that same attempt. inflight
holds the ticket of the outstanding attempt, started counts attempts ever
started. -/
structure SingleFlight where
  inflight : Option Nat
  started : Nat
  deriving DecidableEq

/-- One caller reaching the creation step: attach to the outstanding
attempt, or start a new one and occupy the slot. Returns the ticket of
the attempt whose outcome the caller will observe. -/
def sfCall (s : SingleFlight) : SingleFlight × Nat :=
  match s.inflight with
  | some t => (s, t)
  | none => ({ inflight := some s.started, started := s.started + 1 }, s.started)

/-- n callers reaching the creation step with no settlement in between. -/
def sfCalls : SingleFlight → Nat → SingleFlight × List Nat
  | s, 0 => (s, [])
  | s, n + 1 =>
    let c := sfCall s
    let rest := sfCalls c.1 n
    (rest.1, c.2 :: rest.2)


/-- The creator configuration used by the retry-policy claims: a creation
callback configured, an arbitrary classifier and stored flag, the given
retry budget, and allowNoIdentity so that the exhaustion ladder ends the
call observably instead of sleeping or waiting. -/
def retryCfg (budget : Int) (ce : Option (JsError → Except JsError (Option String)))
    (stored : Bool) : CreatorConfig :=
  { hasCreateFn := true, createIdentityError := ce, stored := stored,
    opts := { defaultOptions with maxRetryCreateIdentities := budget, allowNoIdentity := true } }

instance (opts : Options) (r x : Identity) : Decidable (noWorse opts r x) :=
  inferInstanceAs (Decidable (if opts.recentlyUsedFirst then x.lastTimeUsed ≤ r.lastTimeUsed
    else r.lastTimeUsed ≤ x.lastTimeUsed))

instance (opts : Options) (y r : Identity) : Decidable (strictlyWorse opts y r) :=
  inferInstanceAs (Decidable (if opts.recentlyUsedFirst then y.lastTimeUsed < r.lastTimeUsed
    else r.lastTimeUsed < y.lastTimeUsed))

theorem lookupEntry_setAdd (m : IdMap) (id q : String) (e : Option Identity) :
    lookupEntry (setAdd m id e) q = if id = q then some e else lookupEntry m q := by
  induction m with
  | nil => simp [setAdd, lookupEntry]
  | cons p rest ih =>
    obtain ⟨k, v⟩ := p
    by_cases h1 : k = id
    · subst h1
      by_cases h2 : k = q <;> simp [setAdd, lookupEntry, h2]
    · by_cases h2 : k = q
      · have h3 : ¬ id = q := fun hh => h1 (h2.trans hh.symm)
        have h4 : ¬ q = id := fun hh => h3 hh.symm
        simp [setAdd, lookupEntry, h1, h2, h3, h4]
      · simp [setAdd, lookupEntry, h1, h2, ih]

theorem liveLookup_setAdd (m : IdMap) (id q : String) (e : Option Identity) :
    liveLookup (setAdd m id e) q = if id = q then e.bind some else liveLookup m q := by
  by_cases h : id = q
  · cases e <;> simp [liveLookup, lookupEntry_setAdd, h]
  · simp [liveLookup, lookupEntry_setAdd, h]

theorem noWorse_refl (opts : Options) (r : Identity) : noWorse opts r r := by
  unfold noWorse
  split <;> exact le_refl _

theorem noWorse_trans_strict (opts : Options) {r x b : Identity}
    (h1 : noWorse opts r x) (h2 : strictlyWorse opts b x) : noWorse opts r b := by
  unfold noWorse at *
  unfold strictlyWorse at h2
  cases hr : opts.recentlyUsedFirst <;> simp [hr] at h1 h2 ⊢ <;> omega

theorem noWorse_of_not_strict (opts : Options) {r b x : Identity}
    (h1 : noWorse opts r b) (h2 : ¬ strictlyWorse opts b x) : noWorse opts r x := by
  unfold noWorse at *
  unfold strictlyWorse at h2
  cases hr : opts.recentlyUsedFirst <;> simp [hr] at h1 h2 ⊢ <;> omega

theorem strictlyWorse_trans (opts : Options) {a b c : Identity}
    (h1 : strictlyWorse opts a b) (h2 : strictlyWorse opts b c) : strictlyWorse opts a c := by
  unfold strictlyWorse at *
  cases hr : opts.recentlyUsedFirst <;> simp [hr] at h1 h2 ⊢ <;> omega

theorem strictlyWorse_of_not_strict (opts : Options) {b x r : Identity}
    (h1 : ¬ strictlyWorse opts b x) (h2 : strictlyWorse opts b r) : strictlyWorse opts x r := by
  unfold strictlyWorse at *
  cases hr : opts.recentlyUsedFirst <;> simp [hr] at h1 h2 ⊢ <;> omega

theorem scanStep_not_avail {opts : Options} {now : Int} {i : String × Identity}
    (h : isAvailable opts now i.2 = false) (best : Option (String × Identity)) :
    scanStep opts now best i = best := by
  simp [scanStep, h]

theorem scanStep_avail_none {opts : Options} {now : Int} {i : String × Identity}
    (h : isAvailable opts now i.2 = true) :
    scanStep opts now none i = some i := by
  simp [scanStep, h]

theorem scanStep_avail_some {opts : Options} {now : Int} {i b : String × Identity}
    (h : isAvailable opts now i.2 = true) :
    scanStep opts now (some b) i =
      if strictlyWorse opts b.2 i.2 then some i else some b := by
  simp only [scanStep, h]
  cases hr : opts.recentlyUsedFirst <;> simp [strictlyWorse, hr]

theorem select_mem_avail (opts : Options) (now : Int) (l : List (String × Identity)) :
    ∀ (acc : Option (String × Identity)) (r : String × Identity),
      l.foldl (scanStep opts now) acc = some r →
      acc = some r ∨ (r ∈ l ∧ isAvailable opts now r.2 = true) := by
  induction l with
  | nil => intro acc r h; exact Or.inl h
  | cons x l ih =>
    intro acc r h
    rw [List.foldl_cons] at h
    rcases ih _ r h with h1 | h1
    · by_cases hav : isAvailable opts now x.2 = true
      · cases acc with
        | none =>
          rw [scanStep_avail_none hav] at h1
          cases Option.some_inj.mp h1
          exact Or.inr ⟨List.mem_cons_self _ _, hav⟩
        | some b =>
          rw [scanStep_avail_some hav] at h1
          by_cases hc : strictlyWorse opts b.2 x.2
          · rw [if_pos hc] at h1
            cases Option.some_inj.mp h1
            exact Or.inr ⟨List.mem_cons_self _ _, hav⟩
          · rw [if_neg hc] at h1
            exact Or.inl h1
      · have hav' : isAvailable opts now x.2 = false := by simpa using hav
        rw [scanStep_not_avail hav'] at h1
        exact Or.inl h1
    · exact Or.inr ⟨List.mem_cons_of_mem x h1.1, h1.2⟩

theorem select_bound (opts : Options) (now : Int) (l : List (String × Identity)) :
    ∀ (acc : Option (String × Identity)) (r : String × Identity),
      l.foldl (scanStep opts now) acc = some r →
      (∀ b, acc = some b → noWorse opts r.2 b.2)
      ∧ ∀ x ∈ l, isAvailable opts now x.2 = true → noWorse opts r.2 x.2 := by
  induction l with
  | nil =>
    intro acc r h
    rw [List.foldl_nil] at h
    refine ⟨fun b hb => ?_, by simp⟩
    rw [h] at hb
    cases Option.some_inj.mp hb
    exact noWorse_refl opts r.2
  | cons x l ih =>
    intro acc r h
    rw [List.foldl_cons] at h
    have IH := ih _ r h
    by_cases hav : isAvailable opts now x.2 = true
    · cases acc with
      | none =>
        have hx : noWorse opts r.2 x.2 := IH.1 x (scanStep_avail_none hav)
        refine ⟨by simp, fun y hy hyav => ?_⟩
        rcases List.mem_cons.mp hy with rfl | hy'
        · exact hx
        · exact IH.2 y hy' hyav
      | some b =>
        rw [scanStep_avail_some hav] at IH
        by_cases hc : strictlyWorse opts b.2 x.2
        · rw [if_pos hc] at IH
          have hx : noWorse opts r.2 x.2 := IH.1 x rfl
          refine ⟨fun b' hb' => ?_, fun y hy hyav => ?_⟩
          · cases Option.some_inj.mp hb'
            exact noWorse_trans_strict opts hx hc
          · rcases List.mem_cons.mp hy with rfl | hy'
            · exact hx
            · exact IH.2 y hy' hyav
        · rw [if_neg hc] at IH
          have hb : noWorse opts r.2 b.2 := IH.1 b rfl
          refine ⟨fun b' hb' => ?_, fun y hy hyav => ?_⟩
          · cases Option.some_inj.mp hb'
            exact hb
          · rcases List.mem_cons.mp hy with rfl | hy'
            · exact noWorse_of_not_strict opts hb hc
            · exact IH.2 y hy' hyav
    · have hav' : isAvailable opts now x.2 = false := by simpa using hav
      rw [scanStep_not_avail hav'] at IH
      refine ⟨IH.1, fun y hy hyav => ?_⟩
      rcases List.mem_cons.mp hy with rfl | hy'
      · rw [hav'] at hyav
        exact absurd hyav (by simp)
      · exact IH.2 y hy' hyav

theorem select_first (opts : Options) (now : Int) (l : List (String × Identity)) :
    ∀ (acc : Option (String × Identity)) (r : String × Identity),
      l.foldl (scanStep opts now) acc = some r →
      acc = some r ∨
      ((∀ b, acc = some b → strictlyWorse opts b.2 r.2) ∧
       ∃ l1 l2, l.filter (fun x => isAvailable opts now x.2) = l1 ++ r :: l2 ∧
         ∀ y ∈ l1, strictlyWorse opts y.2 r.2) := by
  induction l with
  | nil => intro acc r h; exact Or.inl h
  | cons x l ih =>
    intro acc r h
    rw [List.foldl_cons] at h
    by_cases hav : isAvailable opts now x.2 = true
    · cases acc with
      | none =>
        rw [scanStep_avail_none hav] at h
        rcases ih (some x) r h with h1 | ⟨haccS, l1, l2, hsp, hl1⟩
        · cases Option.some_inj.mp h1
          refine Or.inr ⟨by simp, [], l.filter (fun x => isAvailable opts now x.2), ?_, by simp⟩
          simp [List.filter_cons, hav]
        · refine Or.inr ⟨by simp, x :: l1, l2, ?_, fun y hy => ?_⟩
          · simp only [List.filter_cons, hav, if_true, hsp]
            simp
          · rcases List.mem_cons.mp hy with rfl | hy'
            · exact haccS _ rfl
            · exact hl1 y hy'
      | some b =>
        rw [scanStep_avail_some hav] at h
        by_cases hc : strictlyWorse opts b.2 x.2
        · rw [if_pos hc] at h
          rcases ih (some x) r h with h1 | ⟨haccS, l1, l2, hsp, hl1⟩
          · cases Option.some_inj.mp h1
            refine Or.inr ⟨fun b' hb' => ?_, [], l.filter (fun x => isAvailable opts now x.2),
              ?_, by simp⟩
            · cases Option.some_inj.mp hb'
              exact hc
            · simp [List.filter_cons, hav]
          · refine Or.inr ⟨fun b' hb' => ?_, x :: l1, l2, ?_, fun y hy => ?_⟩
            · cases Option.some_inj.mp hb'
              exact strictlyWorse_trans opts hc (haccS x rfl)
            · simp only [List.filter_cons, hav, if_true, hsp]
              simp
            · rcases List.mem_cons.mp hy with rfl | hy'
              · exact haccS _ rfl
              · exact hl1 y hy'
        · rw [if_neg hc] at h
          rcases ih (some b) r h with h1 | ⟨haccS, l1, l2, hsp, hl1⟩
          · exact Or.inl h1
          · refine Or.inr ⟨fun b' hb' => ?_, x :: l1, l2, ?_, fun y hy => ?_⟩
            · cases Option.some_inj.mp hb'
              exact haccS b rfl
            · simp only [List.filter_cons, hav, if_true, hsp]
              simp
            · rcases List.mem_cons.mp hy with rfl | hy'
              · exact strictlyWorse_of_not_strict opts hc (haccS b rfl)
              · exact hl1 y hy'
    · have hav' : isAvailable opts now x.2 = false := by simpa using hav
      rw [scanStep_not_avail hav'] at h
      rcases ih acc r h with h1 | ⟨haccS, l1, l2, hsp, hl1⟩
      · exact Or.inl h1
      · refine Or.inr ⟨haccS, l1, l2, ?_, hl1⟩
        simp only [List.filter_cons, hav', hsp]
        rfl

theorem touch_byRec_snap (m : IdMap) (now : Int) (id : String) (s : Identity) :
    ∃ j, (touch m now (.byRec id s)).2 = some (id, j) := by
  simp only [touch, findLive]
  cases h : lookupEntry m id with
  | none =>
    exact ⟨{ s with lastTimeUsed := now }, rfl⟩
  | some e =>
    cases e with
    | none => exact ⟨{ s with lastTimeUsed := now }, rfl⟩
    | some i => exact ⟨{ i with lastTimeUsed := now }, rfl⟩

theorem lock_byRec_snap (m : IdMap) (now : Int) (id : String) (s : Identity) :
    ∃ j, (lock m now (.byRec id s)).2 = some (id, j) := by
  simp only [lock, findLive]
  cases h : lookupEntry m id with
  | none =>
    exact ⟨{ s with locked := some now }, rfl⟩
  | some e =>
    cases e with
    | none => exact ⟨{ s with locked := some now }, rfl⟩
    | some i => exact ⟨{ i with locked := some now }, rfl⟩

theorem isAvailable_spec (opts : Options) (now : Int) (i : Identity)
    (h : isAvailable opts now i = true) :
    (∀ t, i.locked = some t → opts.lockExpire * 1000 < now - t)
    ∧ opts.minIntervalBetweenUse * 1000 ≤ now - i.lastTimeUsed := by
  unfold isAvailable at h
  rw [Bool.and_eq_true] at h
  obtain ⟨h1, h2⟩ := h
  refine ⟨fun t ht => ?_, by simp only [decide_eq_true_eq] at h2; omega⟩
  rw [ht] at h1
  simp only [decide_eq_true_eq] at h1
  omega

theorem getScan_avail (opts : Options) (now : Int) (m : IdMap)
    (id : String) (r : Identity) (h : getScan opts now m = some (id, r)) :
    isAvailable opts now r = true := by
  unfold getScan selectIdentity at h
  rcases select_mem_avail opts now (iterIdentities m) none (id, r) h with h1 | h1
  · cases h1
  · exact h1.2

/-- C1: if one pass of get (acquire) returns a record, then the record it
selected in the scan of that pass, bearing the returned id, satisfied
_isAvailable at scan time: its locked timestamp, when present, is strictly
older than now minus lockExpire seconds, and its lastTimeUsed lies at
least minIntervalBetweenUse seconds in the past. So acquire never returns
a record leased within lockExpire seconds of now, nor one used within
minIntervalBetweenUse seconds of now. -/
theorem c1_acquire_returns_available (opts : Options) (now : Int) (m : IdMap) (lck : Bool)
    (id : String) (snap : Identity) (m' : IdMap)
    (h : getStep opts now m lck = (some (id, snap), m')) :
    ∃ r : Identity, getScan opts now m = some (id, r)
      ∧ isAvailable opts now r = true
      ∧ (∀ t, r.locked = some t → opts.lockExpire * 1000 < now - t)
      ∧ opts.minIntervalBetweenUse * 1000 ≤ now - r.lastTimeUsed := by
  unfold getStep at h
  split at h
  · simp at h
  next id0 r0 hscan =>
    obtain ⟨j, hj⟩ := touch_byRec_snap m now id0 r0
    rw [hj] at h
    have hid : id0 = id := by
      cases lck with
      | false =>
        simp only [Bool.false_eq_true, if_false, Prod.mk.injEq, Option.some.injEq] at h
        exact h.1.1
      | true =>
        obtain ⟨k, hk⟩ := lock_byRec_snap (touch m now (.byRec id0 r0)).1 now id0 j
        simp only [hk, if_true, Prod.mk.injEq, Option.some.injEq] at h
        exact h.1.1
    subst hid
    have hav := getScan_avail opts now m id0 r0 hscan
    obtain ⟨hl, hu⟩ := isAvailable_spec opts now r0 hav
    exact ⟨r0, hscan, hav, hl, hu⟩

/-- C1 witness: a concrete pool where the record returned by get had been
available at scan time. -/
theorem c1_acquire_returns_available_witness :
    getStep defaultOptions 100000 [("a", some ⟨some "d", 0, 0, none⟩)] false
      = (some ("a", ⟨some "d", 0, 100000, none⟩), [("a", some ⟨some "d", 0, 100000, none⟩)])
    ∧ ∃ r : Identity,
        getScan defaultOptions 100000 [("a", some ⟨some "d", 0, 0, none⟩)] = some ("a", r)
        ∧ isAvailable defaultOptions 100000 r = true
        ∧ (∀ t, r.locked = some t → defaultOptions.lockExpire * 1000 < 100000 - t)
        ∧ defaultOptions.minIntervalBetweenUse * 1000 ≤ 100000 - r.lastTimeUsed :=
  ⟨by decide,
   c1_acquire_returns_available defaultOptions 100000 [("a", some ⟨some "d", 0, 0, none⟩)]
     false "a" ⟨some "d", 0, 100000, none⟩ [("a", some ⟨some "d", 0, 100000, none⟩)]
     (by decide)⟩

/-- C6: when the scan of acquire selects a record, that record is an
available record of the list; no available record is a strictly better
candidate (with recentlyUsedFirst true it has the maximum lastTimeUsed
among available records, with recentlyUsedFirst false the minimum); and
every available record encountered before it in iteration order is a
strictly worse candidate, so in particular no earlier available record
ties its lastTimeUsed: first-seen wins ties. -/
theorem c6_selection_by_recency (opts : Options) (now : Int)
    (l : List (String × Identity)) (r : String × Identity)
    (h : selectIdentity opts now l = some r) :
    (r ∈ l ∧ isAvailable opts now r.2 = true)
    ∧ (∀ x ∈ l, isAvailable opts now x.2 = true → noWorse opts r.2 x.2)
    ∧ ∃ l1 l2, l.filter (fun x => isAvailable opts now x.2) = l1 ++ r :: l2
        ∧ (∀ y ∈ l1, strictlyWorse opts y.2 r.2)
        ∧ ∀ y ∈ l1, y.2.lastTimeUsed ≠ r.2.lastTimeUsed := by
  unfold selectIdentity at h
  have hmem := select_mem_avail opts now l none r h
  have hbound := select_bound opts now l none r h
  have hfirst := select_first opts now l none r h
  rcases hmem with h1 | h1
  · cases h1
  rcases hfirst with h2 | ⟨_, l1, l2, hsp, hl1⟩
  · cases h2
  refine ⟨h1, hbound.2, l1, l2, hsp, hl1, fun y hy => ?_⟩
  have := hl1 y hy
  unfold strictlyWorse at this
  rcases hr : opts.recentlyUsedFirst with _ | _ <;> rw [hr] at this <;> simp at this <;> omega

/-- C6 witness: two equally available records with equal lastTimeUsed under
recentlyUsedFirst; the first in iteration order is selected. -/
theorem c6_selection_by_recency_witness :
    selectIdentity defaultOptions 100000
        [("a", ⟨none, 0, 5, none⟩), ("b", ⟨none, 0, 5, none⟩)]
      = some ("a", ⟨none, 0, 5, none⟩)
    ∧ (("a", (⟨none, 0, 5, none⟩ : Identity))
          ∈ [("a", (⟨none, 0, 5, none⟩ : Identity)), ("b", ⟨none, 0, 5, none⟩)]
        ∧ isAvailable defaultOptions 100000 ⟨none, 0, 5, none⟩ = true) :=
  ⟨by decide,
   (c6_selection_by_recency defaultOptions 100000
     [("a", ⟨none, 0, 5, none⟩), ("b", ⟨none, 0, 5, none⟩)]
     ("a", ⟨none, 0, 5, none⟩) (by decide)).1⟩

theorem setAdd_of_absent (m : IdMap) (id : String) (e : Option Identity)
    (h : lookupEntry m id = none) : setAdd m id e = m ++ [(id, e)] := by
  induction m with
  | nil => simp [setAdd]
  | cons p rest ih =>
    obtain ⟨k, v⟩ := p
    unfold lookupEntry at h
    by_cases hk : k = id
    · rw [if_pos hk] at h
      cases h
    · rw [if_neg hk] at h
      simp [setAdd, hk, ih h]

theorem findLive_live (m : IdMap) (one : Ref) (id0 : String) (i0 : Identity)
    (h : findLive m one = (id0, some i0, true)) : liveLookup m id0 = some i0 := by
  cases one with
  | byId id =>
    simp only [findLive] at h
    cases hl : lookupEntry m id with
    | none => rw [hl] at h; simp at h
    | some e =>
      cases e with
      | none => rw [hl] at h; simp at h
      | some i =>
        rw [hl] at h
        simp only [Prod.mk.injEq, Option.some.injEq] at h
        obtain ⟨h1, h2, _⟩ := h
        subst h1
        subst h2
        simp [liveLookup, hl]
  | byRec id snap =>
    simp only [findLive] at h
    cases hl : lookupEntry m id with
    | none => rw [hl] at h; simp at h
    | some e =>
      cases e with
      | none => rw [hl] at h; simp at h
      | some i =>
        rw [hl] at h
        simp only [Prod.mk.injEq, Option.some.injEq] at h
        obtain ⟨h1, h2, _⟩ := h
        subst h1
        subst h2
        simp [liveLookup, hl]

theorem lock_map (m : IdMap) (now : Int) (one : Ref) :
    (lock m now one).1 = m ∨
    ∃ id0 i0, liveLookup m id0 = some i0 ∧
      (lock m now one).1 = setAdd m id0 (some { i0 with locked := some now }) := by
  unfold lock
  split
  · exact Or.inl rfl
  next id0 i0 live heq =>
    cases live
    · exact Or.inl rfl
    · exact Or.inr ⟨id0, i0, findLive_live m one id0 i0 heq, rfl⟩

theorem touch_map (m : IdMap) (now : Int) (one : Ref) :
    (touch m now one).1 = m ∨
    ∃ id0 i0, liveLookup m id0 = some i0 ∧
      (touch m now one).1 = setAdd m id0 (some { i0 with lastTimeUsed := now }) := by
  unfold touch
  split
  · exact Or.inl rfl
  next id0 i0 live heq =>
    cases live
    · exact Or.inl rfl
    · exact Or.inr ⟨id0, i0, findLive_live m one id0 i0 heq, rfl⟩

theorem update_map (m : IdMap) (one : Ref) (d : Option String) :
    (update m one d).1 = m ∨
    ∃ id0 i0, liveLookup m id0 = some i0 ∧
      (update m one d).1 = setAdd m id0 (some { i0 with data := d }) := by
  unfold update
  split
  · exact Or.inl rfl
  next id0 i0 live heq =>
    cases live
    · exact Or.inl rfl
    · exact Or.inr ⟨id0, i0, findLive_live m one id0 i0 heq, rfl⟩

theorem renew_map (m : IdMap) (one : Ref) :
    (renew m one).1 = m ∨
    ∃ id0 i0, liveLookup m id0 = some i0 ∧ 0 < i0.deprecated ∧
      (renew m one).1 = setAdd m id0 (some { i0 with deprecated := 0 }) := by
  unfold renew
  split
  · exact Or.inl rfl
  next id0 i0 live heq =>
    by_cases hd : 0 < i0.deprecated
    · rw [if_pos hd]
      cases live
      · exact Or.inl rfl
      · exact Or.inr ⟨id0, i0, findLive_live m one id0 i0 heq, hd, rfl⟩
    · rw [if_neg hd]
      exact Or.inl rfl

theorem unlock_map (m : IdMap) (now : Int) (one : Ref) :
    (unlock m now one).1 = m ∨
    ∃ id0 i0, liveLookup m id0 = some i0 ∧
      (unlock m now one).1 = setAdd m id0 (some { i0 with locked := none, lastTimeUsed := now }) := by
  unfold unlock
  split
  · exact Or.inl rfl
  next id0 i0 live heq =>
    split
    · cases live
      · exact Or.inl rfl
      · exact Or.inr ⟨id0, i0, findLive_live m one id0 i0 heq, rfl⟩
    · exact Or.inl rfl

theorem remove_map (m : IdMap) (one : Ref) :
    (remove m one).1 = m ∨ ∃ id0, (remove m one).1 = setAdd m id0 none := by
  unfold remove
  split
  · exact Or.inl rfl
  next id0 i0 live heq =>
    exact Or.inr ⟨id0, rfl⟩

theorem stepOk_refl (m : IdMap) : stepOk m m :=
  fun _ i2 h => ⟨i2, h, le_refl _⟩

theorem stepOk_trans {m1 m2 m3 : IdMap} (h1 : stepOk m1 m2) (h2 : stepOk m2 m3) :
    stepOk m1 m3 := by
  intro q i3 h3
  obtain ⟨i2, hl2, hd2⟩ := h2 q i3 h3
  obtain ⟨i1, hl1, hd1⟩ := h1 q i2 hl2
  exact ⟨i1, hl1, le_trans hd1 hd2⟩

theorem stepOk_setAdd_some (m : IdMap) (id : String) (i0 j : Identity)
    (hm : liveLookup m id = some i0) (hd : i0.deprecated ≤ j.deprecated) :
    stepOk m (setAdd m id (some j)) := by
  intro q i2 h2
  rw [liveLookup_setAdd] at h2
  by_cases hq : id = q
  · rw [if_pos hq] at h2
    simp only [Option.some_bind] at h2
    cases Option.some_inj.mp h2
    exact ⟨i0, hq ▸ hm, hd⟩
  · rw [if_neg hq] at h2
    exact ⟨i2, h2, le_refl _⟩

theorem stepOk_setAdd_none (m : IdMap) (id : String) :
    stepOk m (setAdd m id none) := by
  intro q i2 h2
  rw [liveLookup_setAdd] at h2
  by_cases hq : id = q
  · rw [if_pos hq] at h2
    cases h2
  · rw [if_neg hq] at h2
    exact ⟨i2, h2, le_refl _⟩

theorem deprecNondecreasing_of_stepOk {m m2 : IdMap} (h : stepOk m m2) :
    deprecNondecreasing m m2 = true := by
  simp only [deprecNondecreasing, List.all_eq_true]
  intro p hp
  cases h1 : liveLookup m p.1 with
  | none =>
    cases h2 : liveLookup m2 p.1 <;> rfl
  | some i =>
    cases h2 : liveLookup m2 p.1 with
    | none => rfl
    | some i2 =>
      obtain ⟨i1, hl1, hd1⟩ := h p.1 i2 h2
      rw [h1] at hl1
      cases Option.some_inj.mp hl1
      simp [hd1]

theorem stepOk_lock (m : IdMap) (now : Int) (one : Ref) : stepOk m (lock m now one).1 := by
  rcases lock_map m now one with h | ⟨id0, i0, hl, h⟩
  · rw [h]; exact stepOk_refl m
  · rw [h]; exact stepOk_setAdd_some m id0 i0 _ hl (le_refl _)

theorem stepOk_touch (m : IdMap) (now : Int) (one : Ref) : stepOk m (touch m now one).1 := by
  rcases touch_map m now one with h | ⟨id0, i0, hl, h⟩
  · rw [h]; exact stepOk_refl m
  · rw [h]; exact stepOk_setAdd_some m id0 i0 _ hl (le_refl _)

theorem stepOk_update (m : IdMap) (one : Ref) (d : Option String) :
    stepOk m (update m one d).1 := by
  rcases update_map m one d with h | ⟨id0, i0, hl, h⟩
  · rw [h]; exact stepOk_refl m
  · rw [h]; exact stepOk_setAdd_some m id0 i0 _ hl (le_refl _)

theorem stepOk_unlock (m : IdMap) (now : Int) (one : Ref) : stepOk m (unlock m now one).1 := by
  rcases unlock_map m now one with h | ⟨id0, i0, hl, h⟩
  · rw [h]; exact stepOk_refl m
  · rw [h]; exact stepOk_setAdd_some m id0 i0 _ hl (le_refl _)

theorem stepOk_remove (m : IdMap) (one : Ref) : stepOk m (remove m one).1 := by
  rcases remove_map m one with h | ⟨id0, h⟩
  · rw [h]; exact stepOk_refl m
  · rw [h]; exact stepOk_setAdd_none m id0

theorem stepOk_deprecate_tail (m1 : IdMap) (now : Int) (id0 : String) (c : Prop)
    [Decidable c] :
    stepOk m1 (unlock (if c then (remove m1 (.byId id0)).1 else m1) now (.byId id0)).1 := by
  refine stepOk_trans ?_ (stepOk_unlock _ now (.byId id0))
  split
  · exact stepOk_remove _ (.byId id0)
  · exact stepOk_refl _

theorem stepOk_deprecate (opts : Options) (m : IdMap) (now : Int) (one : Ref) :
    stepOk m (deprecate opts m now one).1 := by
  unfold deprecate
  split
  · exact stepOk_refl m
  next id0 i0 live heq =>
    refine stepOk_trans ?_ (stepOk_deprecate_tail _ now id0 _)
    cases live with
    | false => exact stepOk_refl m
    | true =>
      exact stepOk_setAdd_some m id0 i0 _ (findLive_live m one id0 i0 heq)
        (by change i0.deprecated ≤ i0.deprecated + 1; omega)

theorem loadIdentities_pres (l : List (String × Identity)) :
    ∀ (m : IdMap) (q : String) (i : Identity), liveLookup m q = some i →
      ∃ i2, liveLookup (l.foldl (fun acc pr => addIdentityFull acc pr.1 pr.2) m) q = some i2
        ∧ i2.deprecated = i.deprecated := by
  induction l with
  | nil => intro m q i h; exact ⟨i, h, rfl⟩
  | cons x l ih =>
    intro m q i h
    rw [List.foldl_cons]
    by_cases hq : x.1 = q
    · subst hq
      have hl : lookupEntry m x.1 = some (some i) := by
        unfold liveLookup at h
        cases he : lookupEntry m x.1 with
        | none => rw [he] at h; cases h
        | some e =>
          cases e with
          | none => rw [he] at h; cases h
          | some j => rw [he] at h; cases Option.some_inj.mp h; rfl
      have : liveLookup (addIdentityFull m x.1 x.2) x.1 = some (addMerge i x.2) := by
        unfold addIdentityFull
        rw [hl, liveLookup_setAdd, if_pos rfl]
        rfl
      obtain ⟨i2, h2, hd2⟩ := ih (addIdentityFull m x.1 x.2) x.1 (addMerge i x.2) this
      exact ⟨i2, h2, by rw [hd2]; rfl⟩
    · have : liveLookup (addIdentityFull m x.1 x.2) q = some i := by
        unfold addIdentityFull
        rw [liveLookup_setAdd, if_neg hq]
        exact h
      exact ih (addIdentityFull m x.1 x.2) q i this

theorem purge_pres (m : IdMap) (q : String) (i : Identity)
    (h : liveLookup m q = some i) : liveLookup (purgeTombstones m) q = some i := by
  induction m with
  | nil => cases h
  | cons p rest ih =>
    obtain ⟨k, v⟩ := p
    unfold liveLookup lookupEntry at h
    by_cases hk : k = q
    · rw [if_pos hk] at h
      cases v with
      | none => cases h
      | some j =>
        cases Option.some_inj.mp h
        simp [purgeTombstones, liveLookup, lookupEntry, hk]
    · rw [if_neg hk] at h
      cases v with
      | none =>
        simpa [purgeTombstones] using ih h
      | some j =>
        simpa [purgeTombstones, liveLookup, lookupEntry, hk] using ih h

theorem sync_deprec_pres (stored : Bool) (rt : Except JsError IdMap) (m : IdMap)
    (q : String) (i : Identity) (h : liveLookup m q = some i) :
    ∃ i2, liveLookup (syncStoreForce stored rt m) q = some i2
      ∧ i2.deprecated = i.deprecated := by
  unfold syncStoreForce
  cases stored with
  | false =>
    exact ⟨i, purge_pres m q i h, rfl⟩
  | true =>
    cases rt with
    | error e => exact ⟨i, h, rfl⟩
    | ok loaded =>
      obtain ⟨i2, h2, hd2⟩ := loadIdentities_pres (iterIdentities loaded) m q i h
      exact ⟨i2, purge_pres _ q i2 h2, hd2⟩

theorem deprecNondecreasing_sync (stored : Bool) (rt : Except JsError IdMap) (m : IdMap) :
    deprecNondecreasing m (syncStoreForce stored rt m) = true := by
  simp only [deprecNondecreasing, List.all_eq_true]
  intro p hp
  cases h1 : liveLookup m p.1 with
  | none => cases h2 : liveLookup (syncStoreForce stored rt m) p.1 <;> rfl
  | some i =>
    obtain ⟨i2, h2, hd2⟩ := sync_deprec_pres stored rt m p.1 i h1
    rw [h2]
    simp [hd2]

theorem renewResets_of_renew (m : IdMap) (one : Ref) :
    renewResets m (renew m one).1 = true := by
  simp only [renewResets, List.all_eq_true]
  intro p hp
  rcases renew_map m one with h | ⟨id0, i0, hl, hd0, h⟩
  · rw [h]
    cases h1 : liveLookup m p.1 <;> simp
  · rw [h, liveLookup_setAdd]
    by_cases hq : id0 = p.1
    · rw [if_pos hq]
      cases h1 : liveLookup m p.1 <;> simp
    · rw [if_neg hq]
      cases h1 : liveLookup m p.1 <;> simp

/-- C4 is false as stated: renew on a record with deprecated 1 resets it to
0, a strict decrease while the record stays in the pool. -/
theorem c4_deprecated_counterexample :
    deprecNondecreasing [("a", some ⟨none, 1, 0, none⟩)]
      (renew [("a", some ⟨none, 1, 0, none⟩)] (.byId "a")).1 = false := by decide

/-- C4 (amended): the deprecated counter of a record never decreases while
the record remains live in the pool under lock, unlock, touch, update,
deprecate, remove and a store sync (successful or failed); the one
exception is renew, which either leaves deprecated unchanged or resets it
to 0. -/
theorem c4_deprecated_monotone_except_renew (m : IdMap) (now : Int) (one : Ref)
    (opts : Options) (d : Option String) (stored : Bool) (rt : Except JsError IdMap) :
    deprecNondecreasing m (lock m now one).1 = true
    ∧ deprecNondecreasing m (unlock m now one).1 = true
    ∧ deprecNondecreasing m (touch m now one).1 = true
    ∧ deprecNondecreasing m (update m one d).1 = true
    ∧ deprecNondecreasing m (deprecate opts m now one).1 = true
    ∧ deprecNondecreasing m (remove m one).1 = true
    ∧ deprecNondecreasing m (syncStoreForce stored rt m) = true
    ∧ renewResets m (renew m one).1 = true :=
  ⟨deprecNondecreasing_of_stepOk (stepOk_lock m now one),
   deprecNondecreasing_of_stepOk (stepOk_unlock m now one),
   deprecNondecreasing_of_stepOk (stepOk_touch m now one),
   deprecNondecreasing_of_stepOk (stepOk_update m one d),
   deprecNondecreasing_of_stepOk (stepOk_deprecate opts m now one),
   deprecNondecreasing_of_stepOk (stepOk_remove m one),
   deprecNondecreasing_sync stored rt m,
   renewResets_of_renew m one⟩

/-- C3 is false as stated: remove, given a record snapshot whose id is not
present in the map, is not a no-op; the detached-copy fallback of _find
makes it write a null tombstone for the unknown id. -/
theorem c3_unknown_id_counterexample :
    remove ([] : IdMap) (.byRec "x" ⟨some "d", 0, 0, none⟩)
      = ([("x", none)], some ("x", ⟨some "d", 0, 0, none⟩)) := by decide

/-- C3 (amended): for an id absent from the map, every mutator called with
the plain id string is a no-op returning undefined; called with a record
snapshot bearing that id, lock, unlock, touch, update, renew and deprecate
leave the map unchanged (they mutate only the detached copy), while remove
appends a null tombstone for the snapshot id. None of them throw: all are
total. -/
theorem c3_unknown_id_mutators (m : IdMap) (id : String) (snap : Identity) (now : Int)
    (opts : Options) (d : Option String) (h : lookupEntry m id = none) :
    lock m now (.byId id) = (m, none)
    ∧ unlock m now (.byId id) = (m, none)
    ∧ touch m now (.byId id) = (m, none)
    ∧ update m (.byId id) d = (m, none)
    ∧ renew m (.byId id) = (m, none)
    ∧ deprecate opts m now (.byId id) = (m, none)
    ∧ remove m (.byId id) = (m, none)
    ∧ (lock m now (.byRec id snap)).1 = m
    ∧ (unlock m now (.byRec id snap)).1 = m
    ∧ (touch m now (.byRec id snap)).1 = m
    ∧ (update m (.byRec id snap) d).1 = m
    ∧ (renew m (.byRec id snap)).1 = m
    ∧ (deprecate opts m now (.byRec id snap)).1 = m
    ∧ remove m (.byRec id snap) = (m ++ [(id, none)], some (id, snap)) := by
  refine ⟨?_, ?_, ?_, ?_, ?_, ?_, ?_, ?_, ?_, ?_, ?_, ?_, ?_, ?_⟩
  · simp [lock, findLive, h]
  · simp [unlock, findLive, h]
  · simp [touch, findLive, h]
  · simp [update, findLive, h]
  · simp [renew, findLive, h]
  · simp [deprecate, findLive, h]
  · simp [remove, findLive, h]
  · simp [lock, findLive, h]
  · simp only [unlock, findLive, h]
    cases snap.locked <;> rfl
  · simp [touch, findLive, h]
  · simp [update, findLive, h]
  · simp only [renew, findLive, h]
    split <;> rfl
  · simp only [deprecate, findLive, h]
    split <;> simp [remove, unlock, findLive, h]
  · simp only [remove, findLive, h]
    rw [setAdd_of_absent m id none h]

/-- C3 witness: on a one-record pool, mutating an absent id "b" by string is
a no-op, and remove by snapshot of "b" appends exactly a tombstone. -/
theorem c3_unknown_id_mutators_witness :
    lookupEntry [("a", some ⟨none, 0, 0, none⟩)] "b" = none
    ∧ remove [("a", some ⟨none, 0, 0, none⟩)] (.byId "b")
        = ([("a", some ⟨none, 0, 0, none⟩)], none)
    ∧ remove [("a", some ⟨none, 0, 0, none⟩)] (.byRec "b" ⟨some "s", 2, 5, some 3⟩)
        = ([("a", some ⟨none, 0, 0, none⟩)] ++ [("b", none)],
           some ("b", ⟨some "s", 2, 5, some 3⟩)) := by
  refine ⟨by decide, ?_, ?_⟩
  · exact (c3_unknown_id_mutators [("a", some ⟨none, 0, 0, none⟩)] "b"
      ⟨some "s", 2, 5, some 3⟩ 7 defaultOptions (some "nd") (by decide)).2.2.2.2.2.2.1
  · exact (c3_unknown_id_mutators [("a", some ⟨none, 0, 0, none⟩)] "b"
      ⟨some "s", 2, 5, some 3⟩ 7 defaultOptions
      (some "nd") (by decide)).2.2.2.2.2.2.2.2.2.2.2.2.2

theorem noTombstones_purge (m : IdMap) : noTombstones (purgeTombstones m) = true := by
  simp only [noTombstones, purgeTombstones, List.all_eq_true]
  intro p hp
  exact (List.mem_filter.mp hp).2

/-- C5: a store-backed flush whose round trip fails keeps the whole
in-memory map, tombstones included, exactly as it was (the catch block
only logs, so nothing reaches the mutation caller, which the totality of
syncStoreForce encodes); a flush whose round trip succeeds leaves no
tombstone in the map. Hence tombstones are purged exactly by the flushes
that complete without error. -/
theorem c5_sync_failure_retains (m loaded : IdMap) (e : JsError) :
    syncStoreForce true (.error e) m = m
    ∧ noTombstones (syncStoreForce true (.ok loaded) m) = true :=
  ⟨rfl, noTombstones_purge (loadIdentities m loaded)⟩

theorem retryOrExhaust_retry (cfg : CreatorConfig) (m : IdMap) (trial : Nat) (pulled : IdMap)
    (h1 : 0 ≤ cfg.opts.maxRetryCreateIdentities)
    (h2 : (trial : Int) ≤ cfg.opts.maxRetryCreateIdentities)
    (h3 : cfg.hasCreateFn = true) :
    retryOrExhaust cfg m trial pulled = .again m := by
  unfold retryOrExhaust
  rw [if_pos ⟨h1, h2, h3⟩]

theorem retryOrExhaust_allowNo (cfg : CreatorConfig) (m : IdMap) (trial : Nat) (pulled : IdMap)
    (h : ¬ (0 ≤ cfg.opts.maxRetryCreateIdentities ∧
        (trial : Int) ≤ cfg.opts.maxRetryCreateIdentities ∧ cfg.hasCreateFn = true))
    (ha : cfg.opts.allowNoIdentity = true) :
    retryOrExhaust cfg m trial pulled = .ret false m := by
  unfold retryOrExhaust
  rw [if_neg h, if_pos ha]

theorem retryOrExhaust_ne_thrown (cfg : CreatorConfig) (m : IdMap) (trial : Nat)
    (pulled : IdMap) (e2 : JsError) (m2 : IdMap) :
    retryOrExhaust cfg m trial pulled ≠ .thrown e2 m2 := by
  unfold retryOrExhaust
  split_ifs <;> simp

theorem createStep_empty (cfg : CreatorConfig) (m : IdMap) (trial : Nat)
    (freshId : String) (now : Int) (pulled : IdMap) :
    createIdentityStep cfg m trial (.ret none) freshId now pulled
      = retryOrExhaust cfg m trial pulled := by
  unfold createIdentityStep
  cases cfg.hasCreateFn <;> rfl

theorem createStep_thr (cfg : CreatorConfig) (m : IdMap) (trial : Nat) (e : JsError)
    (freshId : String) (now : Int) (pulled : IdMap) (hfn : cfg.hasCreateFn = true) :
    createIdentityStep cfg m trial (.thr e) freshId now pulled
      = if (classify cfg.createIdentityError e).retryable = true
        then retryOrExhaust cfg m trial pulled else .thrown e m := by
  unfold createIdentityStep
  rw [hfn]
  rfl

theorem c2run_still_looping (R : Nat) (ce : Option (JsError → Except JsError (Option String)))
    (stored : Bool) (now : Int) (freshIds : Nat → String) (pulled : IdMap) :
    ∀ (fuel trial : Nat) (m : IdMap), trial + fuel ≤ R →
      createIdentityRun (retryCfg (R : Int) ce stored) now (fun _ => .ret none) freshIds
        pulled fuel trial m = none := by
  intro fuel
  induction fuel with
  | zero => intro trial m _; rfl
  | succ f ih =>
    intro trial m h
    simp only [createIdentityRun]
    rw [createStep_empty]
    rw [retryOrExhaust_retry _ _ _ _ (by show (0 : Int) ≤ (R : Int); omega)
      (by show ((trial + 1 : Nat) : Int) ≤ (R : Int); omega) rfl]
    exact ih (trial + 1) m (by omega)

theorem c2run_exhausts (R : Nat) (ce : Option (JsError → Except JsError (Option String)))
    (stored : Bool) (now : Int) (freshIds : Nat → String) (pulled : IdMap) :
    ∀ (fuel trial : Nat) (m : IdMap), trial + fuel = R + 1 → 1 ≤ fuel →
      createIdentityRun (retryCfg (R : Int) ce stored) now (fun _ => .ret none) freshIds
        pulled fuel trial m = some (.ret false m) := by
  intro fuel
  induction fuel with
  | zero => intro trial m _ h1; exact absurd h1 (by omega)
  | succ f ih =>
    intro trial m h _
    simp only [createIdentityRun]
    rw [createStep_empty]
    by_cases hf : f = 0
    · subst hf
      rw [retryOrExhaust_allowNo _ _ _ _ ?_ rfl]
      rintro ⟨-, h2, -⟩
      have h2' : ((trial + 1 : Nat) : Int) ≤ (R : Int) := h2
      omega
    · rw [retryOrExhaust_retry _ _ _ _ (by show (0 : Int) ≤ (R : Int); omega)
        (by show ((trial + 1 : Nat) : Int) ≤ (R : Int); omega) rfl]
      exact ih (trial + 1) m (by omega) (by omega)

theorem c2run_unlimited_exhausts_immediately
    (ce : Option (JsError → Except JsError (Option String))) (stored : Bool) (now : Int)
    (freshIds : Nat → String) (pulled : IdMap) (m : IdMap) :
    createIdentityRun (retryCfg (-1) ce stored) now (fun _ => .ret none) freshIds
      pulled 1 0 m = some (.ret false m) := by
  simp only [createIdentityRun]
  rw [createStep_empty]
  rw [retryOrExhaust_allowNo _ _ _ _ ?_ rfl]
  rintro ⟨h1, -, -⟩
  have h1' : (0 : Int) ≤ -1 := h1
  omega

/-- C2 is false as stated: with a creation callback configured and the
unlimited budget maxRetryCreateIdentities negative (here the default, -1),
an attempt whose callback produced nothing does not retry forever; the
very first loop iteration falls through to the exhaustion handling and,
with allowNoIdentity, returns false. -/
theorem c2_unlimited_retry_counterexample :
    createIdentityRun (retryCfg (-1) none false) 0 (fun _ => .ret none) (fun _ => "u") [] 1 0 []
      = some (.ret false [])
    ∧ (retryCfg (-1) none false).hasCreateFn = true
    ∧ (retryCfg (-1) none false).opts.maxRetryCreateIdentities = -1 := by
  refine ⟨?_, rfl, rfl⟩
  exact c2run_unlimited_exhausts_immediately none false 0 (fun _ => "u") [] []

/-- C2 (amended): with a creation callback configured and a non-negative
budget R, the creator retries a fruitless attempt while the trial count is
at most R and enters the exhaustion handling on trial R plus 1 (the run
still loops with fuel R and finishes with fuel R plus 1); with a negative
(unlimited) budget it performs no retries at all: the first fruitless
iteration already falls into exhaustion handling. -/
theorem c2_retry_policy (R : Nat) (m : IdMap) (now : Int) (freshIds : Nat → String)
    (ce : Option (JsError → Except JsError (Option String))) (stored : Bool)
    (pulled : IdMap) :
    createIdentityRun (retryCfg (R : Int) ce stored) now (fun _ => .ret none) freshIds
        pulled (R + 1) 0 m = some (.ret false m)
    ∧ createIdentityRun (retryCfg (R : Int) ce stored) now (fun _ => .ret none) freshIds
        pulled R 0 m = none
    ∧ createIdentityRun (retryCfg (-1) ce stored) now (fun _ => .ret none) freshIds
        pulled 1 0 m = some (.ret false m) :=
  ⟨c2run_exhausts R ce stored now freshIds pulled (R + 1) 0 m (by omega) (by omega),
   c2run_still_looping R ce stored now freshIds pulled R 0 m (by omega),
   c2run_unlimited_exhausts_immediately ce stored now freshIds pulled m⟩

/-- C7: when the creation callback throws, a non-retryable classification
(the classifier produced no truthy explanation and the error is not a
JobRuntime error) makes that very iteration of _createIdentity rethrow the
error, whatever the trial count and budget; a retryable classification
never throws: the iteration proceeds to the retry check and, while budget
remains, loops again. -/
theorem c7_nonretryable_error_propagates (cfg : CreatorConfig) (m : IdMap) (trial : Nat)
    (e : JsError) (freshId : String) (now : Int) (pulled : IdMap)
    (hfn : cfg.hasCreateFn = true) :
    ((classify cfg.createIdentityError e).retryable = false →
      createIdentityStep cfg m trial (.thr e) freshId now pulled = .thrown e m)
    ∧ ((classify cfg.createIdentityError e).retryable = true →
      (∀ e2 m2, createIdentityStep cfg m trial (.thr e) freshId now pulled ≠ .thrown e2 m2)
      ∧ (0 ≤ cfg.opts.maxRetryCreateIdentities →
         (trial : Int) ≤ cfg.opts.maxRetryCreateIdentities →
         createIdentityStep cfg m trial (.thr e) freshId now pulled = .again m)) := by
  rw [createStep_thr cfg m trial e freshId now pulled hfn]
  constructor
  · intro hret
    rw [if_neg (by simp [hret])]
  · intro hret
    rw [if_pos hret]
    exact ⟨fun e2 m2 => retryOrExhaust_ne_thrown cfg m trial pulled e2 m2,
      fun h1 h2 => retryOrExhaust_retry cfg m trial pulled h1 h2 hfn⟩

/-- C7 witness: with no classifier configured, a thrown error named Boom is
non-retryable and the step rethrows it even with a large budget left. -/
theorem c7_nonretryable_error_propagates_witness :
    (retryCfg 99 none false).hasCreateFn = true
    ∧ ((classify (retryCfg 99 none false).createIdentityError ⟨true, "Boom"⟩).retryable = false
      → createIdentityStep (retryCfg 99 none false) [] 1 (.thr ⟨true, "Boom"⟩) "u" 0 []
          = .thrown ⟨true, "Boom"⟩ []) :=
  ⟨rfl, (c7_nonretryable_error_propagates (retryCfg 99 none false) [] 1 ⟨true, "Boom"⟩
    "u" 0 [] rfl).1⟩

/-- C10: an Error whose name is JobRuntime is classified retryable no matter
which classifier is configured, and without consulting it; any other error
does get the classifier invoked when one exists; and when the classifier
itself throws, the secondary error is recorded (the source catches and
logs it), the original error is non-retryable, and the creation step
rethrows the original error. -/
theorem c10_jobruntime_classification (e : JsError)
    (g : JsError → Except JsError (Option String)) (ee : JsError) (m : IdMap)
    (trial : Nat) (freshId : String) (now : Int) (pulled : IdMap) (stored : Bool)
    (opts : Options) :
    (e.isError = true → e.name = "JobRuntime" →
      ∀ ce, classify ce e = ⟨true, false, none⟩)
    ∧ ((e.isError && e.name == "JobRuntime") = false →
        (classify (some g) e).consulted = true)
    ∧ ((e.isError && e.name == "JobRuntime") = false → g e = .error ee →
        classify (some g) e = ⟨false, true, some ee⟩
        ∧ createIdentityStep ⟨true, some g, stored, opts⟩ m trial (.thr e) freshId now pulled
            = .thrown e m) := by
  refine ⟨fun h1 h2 ce => ?_, fun hb => ?_, fun hb hge => ?_⟩
  · unfold classify
    rw [if_pos (by simp [h1, h2])]
  · unfold classify
    rw [if_neg (by simp [hb])]
    cases hge2 : g e <;> simp [hge2]
  · have hcl : classify (some g) e = ⟨false, true, some ee⟩ := by
      unfold classify
      rw [if_neg (by simp [hb])]
      simp [hge]
    refine ⟨hcl, ?_⟩
    rw [createStep_thr _ m trial e freshId now pulled rfl]
    rw [hcl]
    rfl

/-- C10 witness: a JobRuntime error is retryable and unconsulted under a
throwing classifier; a plain error consults that classifier, whose own
exception is caught and leaves the original non-retryable and rethrown. -/
theorem c10_jobruntime_classification_witness :
    ((⟨true, "JobRuntime"⟩ : JsError).isError = true
      ∧ (⟨true, "JobRuntime"⟩ : JsError).name = "JobRuntime"
      ∧ classify (some fun _ => .error ⟨true, "Inner"⟩) ⟨true, "JobRuntime"⟩
          = ⟨true, false, none⟩)
    ∧ (((⟨true, "Oops"⟩ : JsError).isError && (⟨true, "Oops"⟩ : JsError).name == "JobRuntime")
          = false
      ∧ classify (some fun _ => .error ⟨true, "Inner"⟩) ⟨true, "Oops"⟩
          = ⟨false, true, some ⟨true, "Inner"⟩⟩
      ∧ createIdentityStep ⟨true, some fun _ => .error ⟨true, "Inner"⟩, false, defaultOptions⟩
          [] 1 (.thr ⟨true, "Oops"⟩) "u" 0 [] = .thrown ⟨true, "Oops"⟩ []) := by
  have h := c10_jobruntime_classification ⟨true, "Oops"⟩ (fun _ => .error ⟨true, "Inner"⟩)
    ⟨true, "Inner"⟩ [] 1 "u" 0 [] false defaultOptions
  have hj := c10_jobruntime_classification ⟨true, "JobRuntime"⟩
    (fun _ => .error ⟨true, "Inner"⟩) ⟨true, "Inner"⟩ [] 1 "u" 0 [] false defaultOptions
  refine ⟨⟨rfl, rfl, hj.1 rfl rfl _⟩, by decide, ?_, ?_⟩
  · exact (h.2.2 (by decide) rfl).1
  · exact (h.2.2 (by decide) rfl).2

theorem sfCalls_inflight (t : Nat) :
    ∀ (n : Nat) (s : SingleFlight), s.inflight = some t →
      sfCalls s n = (s, List.replicate n t) := by
  intro n
  induction n with
  | zero => intro s h; rfl
  | succ k ih =>
    intro s h
    simp only [sfCalls, sfCall, h]
    rw [ih s h]
    rfl

/-- C8 (spec-modelled): when n callers concurrently reach the creation step
of a pool whose single-flight slot is empty, exactly one new attempt is
started (the started counter grows by one) and every one of the n callers
observes that same attempt. -/
theorem c8_single_flight (s : SingleFlight) (n : Nat) (h0 : s.inflight = none)
    (h1 : 1 ≤ n) :
    (sfCalls s n).1.started = s.started + 1
    ∧ (∀ t ∈ (sfCalls s n).2, t = s.started)
    ∧ (sfCalls s n).2.length = n := by
  cases n with
  | zero => exact absurd h1 (by omega)
  | succ k =>
    have hs : sfCall s = ({ inflight := some s.started, started := s.started + 1 }, s.started) := by
      simp only [sfCall, h0]
    simp only [sfCalls, hs]
    rw [sfCalls_inflight s.started k { inflight := some s.started, started := s.started + 1 } rfl]
    refine ⟨rfl, fun t ht => ?_, by simp⟩
    rcases List.mem_cons.mp ht with rfl | ht2
    · rfl
    · exact List.eq_of_mem_replicate ht2

/-- C8 witness: three concurrent callers on an idle pool trigger one
attempt, all observing ticket 0. -/
theorem c8_single_flight_witness :
    (⟨none, 0⟩ : SingleFlight).inflight = none ∧ 1 ≤ 3
    ∧ (sfCalls ⟨none, 0⟩ 3).1.started = 0 + 1
    ∧ (∀ t ∈ (sfCalls ⟨none, 0⟩ 3).2, t = 0)
    ∧ (sfCalls ⟨none, 0⟩ 3).2.length = 3 := by
  have h := c8_single_flight ⟨none, 0⟩ 3 rfl (by omega)
  exact ⟨rfl, by omega, h.1, h.2.1, h.2.2⟩

/-- C9: a payload without a lastTimeUsed field whose id does not name a live
pool entry (in particular a creation-callback payload, whose id is a fresh
uuid) is stored by _add with lastTimeUsed equal to the insertion time now
and is in the pool afterwards; consequently, whenever
minIntervalBetweenUse is positive, the fresh record fails _isAvailable at
every scan happening less than minIntervalBetweenUse seconds after its
creation. -/
theorem c9_fresh_identity_cooldown (m : IdMap) (p : Payload) (freshId : String)
    (now : Int) (opts : Options) (t : Int)
    (hlt : p.lastTimeUsed = none)
    (hfresh : liveLookup m (p.id.getD freshId) = none) :
    (addIdentity m freshId now p).2.2.lastTimeUsed = now
    ∧ liveLookup (addIdentity m freshId now p).1 (addIdentity m freshId now p).2.1
        = some (addIdentity m freshId now p).2.2
    ∧ (0 < opts.minIntervalBetweenUse → t < now + opts.minIntervalBetweenUse * 1000 →
        isAvailable opts t (addIdentity m freshId now p).2.2 = false) := by
  have hid : lookupEntry m (p.id.getD freshId) = none
      ∨ lookupEntry m (p.id.getD freshId) = some none := by
    unfold liveLookup at hfresh
    cases he : lookupEntry m (p.id.getD freshId) with
    | none => exact Or.inl rfl
    | some e =>
      cases e with
      | none => exact Or.inr rfl
      | some i => rw [he] at hfresh; cases hfresh
  have hadd : addIdentity m freshId now p
      = (setAdd m (p.id.getD freshId)
          (some { data := p.data, deprecated := p.deprecated.getD 0,
                  lastTimeUsed := now, locked := p.locked.getD none }),
         (p.id.getD freshId,
          { data := p.data, deprecated := p.deprecated.getD 0,
            lastTimeUsed := now, locked := p.locked.getD none })) := by
    rcases hid with he | he <;>
      simp only [addIdentity, he, hlt, Option.getD_some, Option.getD_none]
  rw [hadd]
  refine ⟨rfl, ?_, fun hI ht => ?_⟩
  · rw [liveLookup_setAdd, if_pos rfl]
    rfl
  · unfold isAvailable
    have hb : decide ((now : Int) ≤ t - opts.minIntervalBetweenUse * 1000) = false := by
      simp only [decide_eq_false_iff_not]
      omega
    exact by rw [hb, Bool.and_false]

/-- C9 witness: a creation payload carrying only data, added at time 0 into
an empty pool with a 5 second cooldown, is unavailable at a scan 100
milliseconds later. -/
theorem c9_fresh_identity_cooldown_witness :
    ({ data := some "d" } : Payload).lastTimeUsed = none
    ∧ liveLookup ([] : IdMap) (({ data := some "d" } : Payload).id.getD "u1") = none
    ∧ (addIdentity [] "u1" 0 { data := some "d" }).2.2.lastTimeUsed = 0
    ∧ (0 < ({ defaultOptions with minIntervalBetweenUse := 5 } : Options).minIntervalBetweenUse →
        (100 : Int) < 0 + ({ defaultOptions with minIntervalBetweenUse := 5 } : Options).minIntervalBetweenUse * 1000 →
        isAvailable { defaultOptions with minIntervalBetweenUse := 5 } 100
          (addIdentity [] "u1" 0 { data := some "d" }).2.2 = false) := by
  have h := c9_fresh_identity_cooldown [] { data := some "d" } "u1" 0
    { defaultOptions with minIntervalBetweenUse := 5 } 100 rfl rfl
  exact ⟨rfl, rfl, h.1, h.2.2⟩

end Identities
